import Mathlib

/-!
Verification of the per-chat playback engine of a group-chat music-streaming
bot, written in Go. The development shallowly embeds the relevant Go code:

* `pkg/core/cache/chat_cache.go` — the chat queue store (`ChatCacher`);
* the `/play`, `/loop`, `/seek`, `/remove` command handlers;
* `pkg/vc/helpers.go` — `PlayNext`, `handleNoSong`, `SeekStream`, `Stop`;
* `pkg/core/dl/http_client.go` — `sendRequest` retry loop and the
  `DownloadFile` deadline;
* the generic TTL cache.

Go maps become functions `Int → Option ChatData`; Go methods that mutate the
receiver become functions returning the new state; filesystem and engine
effects become explicit action traces.
-/

set_option autoImplicit false

namespace TgMusic

/-- Embeds Go `cache.CachedTrack` (the queue entry type): the fields used by
the queue store and the handlers. `Loop` and `Duration` are Go `int`,
modelled as `Int`. -/
structure CachedTrack where
  URL : String
  Name : String
  Loop : Int
  User : String
  FilePath : String
  TrackID : String
  Duration : Int
  IsVideo : Bool
  Platform : String
deriving Repr, DecidableEq

/-- Embeds Go `cache.ChatData`: the active flag and the queue of one chat. -/
structure ChatData where
  IsActive : Bool
  Queue : List CachedTrack
deriving Repr, DecidableEq

/-- The `chatCache map[int64]*ChatData` of `ChatCacher`, as a function from
chat id to the chat's data (`none` = key absent). -/
def ChatMap : Type := Int → Option ChatData

/-- Map update: Go `c.chatCache[chatID] = data`. -/
def mapSet (m : ChatMap) (chatID : Int) (d : ChatData) : ChatMap :=
  fun i => if i = chatID then some d else m i

/-- Map deletion: Go `delete(c.chatCache, chatID)`. -/
def mapDel (m : ChatMap) (chatID : Int) : ChatMap :=
  fun i => if i = chatID then none else m i

/-- The fresh store produced by `NewChatCacher`. -/
def emptyChats : ChatMap := fun _ => none

/-- Embeds `ChatCacher.AddSong`: if the chat is absent it is created with
`IsActive: true` and an empty queue, then the song is appended. (The Go
method returns the added song; that return value carries no information.) -/
def AddSong (m : ChatMap) (chatID : Int) (song : CachedTrack) : ChatMap :=
  match m chatID with
  | none => mapSet m chatID { IsActive := true, Queue := [song] }
  | some d => mapSet m chatID { d with Queue := d.Queue ++ [song] }

/-- Embeds `ChatCacher.GetUpcomingTrack`: `queue[1]`, or `nil` when the queue
has fewer than two entries. -/
def GetUpcomingTrack (m : ChatMap) (chatID : Int) : Option CachedTrack :=
  match m chatID with
  | none => none
  | some d => if d.Queue.length < 2 then none else d.Queue[1]?

/-- Embeds `ChatCacher.GetPlayingTrack`: `queue[0]`, or `nil` when empty. -/
def GetPlayingTrack (m : ChatMap) (chatID : Int) : Option CachedTrack :=
  match m chatID with
  | none => none
  | some d => d.Queue.head?

/-- Embeds `ChatCacher.RemoveCurrentSong`: pops `queue[0]`; when `diskClear`
is set and the popped entry has a file path, the files it owns are unlinked
(`os.Remove` of the media file and of the cover photo). Returns the removed
track, the list of paths unlinked, and the new store. -/
def RemoveCurrentSong (m : ChatMap) (chatID : Int) (diskClear : Bool) :
    Option CachedTrack × List String × ChatMap :=
  match m chatID with
  | none => (none, [], m)
  | some d =>
    match d.Queue with
    | [] => (none, [], m)
    | removed :: rest =>
      let files :=
        if diskClear && removed.FilePath != "" then
          [removed.FilePath, "database/photos/" ++ removed.TrackID ++ ".png"]
        else []
      (some removed, files, mapSet m chatID { d with Queue := rest })

/-- Embeds `ChatCacher.IsActive`: `ok && data.IsActive`. -/
def IsActive (m : ChatMap) (chatID : Int) : Bool :=
  match m chatID with
  | none => false
  | some d => d.IsActive

/-- Embeds `ChatCacher.SetActive`: creates the chat with an empty queue if it
is absent, then sets the flag. -/
def SetActive (m : ChatMap) (chatID : Int) (active : Bool) : ChatMap :=
  match m chatID with
  | none => mapSet m chatID { IsActive := active, Queue := [] }
  | some d => mapSet m chatID { d with IsActive := active }

/-- Embeds `ChatCacher.ClearChat`: deletes the chat's entry; when `diskClear`
is set, first unlinks every queued track's file. Returns the unlinked paths
and the new store. -/
def ClearChat (m : ChatMap) (chatID : Int) (diskClear : Bool) :
    List String × ChatMap :=
  match m chatID with
  | none => ([], m)
  | some d =>
    let files :=
      if diskClear then
        (d.Queue.filter (fun t => t.FilePath != "")).map (fun t => t.FilePath)
      else []
    (files, mapDel m chatID)

/-- Embeds `ChatCacher.GetQueueLength`. -/
def GetQueueLength (m : ChatMap) (chatID : Int) : Nat :=
  match m chatID with
  | none => 0
  | some d => d.Queue.length

/-- Embeds `ChatCacher.GetLoopCount`: `queue[0].Loop`, or `0` when the chat
is absent or its queue empty. -/
def GetLoopCount (m : ChatMap) (chatID : Int) : Int :=
  match m chatID with
  | none => 0
  | some d =>
    match d.Queue with
    | [] => 0
    | t :: _ => t.Loop

/-- Embeds `ChatCacher.SetLoopCount`: sets `queue[0].Loop` and reports true;
reports false (leaving the store unchanged) when the chat is absent or its
queue empty. -/
def SetLoopCount (m : ChatMap) (chatID : Int) (loop : Int) : Bool × ChatMap :=
  match m chatID with
  | none => (false, m)
  | some d =>
    match d.Queue with
    | [] => (false, m)
    | t :: rest => (true, mapSet m chatID { d with Queue := { t with Loop := loop } :: rest })

/-- Embeds `ChatCacher.RemoveTrack`: removes `queue[index]` (a 0-based
index) and reports true; reports false when the chat is absent or the index
is out of `[0, len)`. -/
def RemoveTrack (m : ChatMap) (chatID : Int) (index : Int) : Bool × ChatMap :=
  match m chatID with
  | none => (false, m)
  | some d =>
    if index < 0 || (d.Queue.length : Int) ≤ index then (false, m)
    else (true, mapSet m chatID { d with Queue := d.Queue.eraseIdx index.toNat })

/-- Embeds `ChatCacher.GetQueue` (a copy of the queue). -/
def GetQueue (m : ChatMap) (chatID : Int) : List CachedTrack :=
  match m chatID with
  | none => []
  | some d => d.Queue

/-- Embeds `ChatCacher.GetTrackIfExists`: first queued track with the given
`TrackID`. -/
def GetTrackIfExists (m : ChatMap) (chatID : Int) (trackID : String) :
    Option CachedTrack :=
  match m chatID with
  | none => none
  | some d => d.Queue.find? (fun t => t.TrackID == trackID)

/-!
Command handlers. Each handler is embedded as a function from the store (and
the already-parsed command argument) to a reply tag and the new store; the
chat-protocol message sends carry only the reply tag.
-/

/-- Outcome of the queue-fullness admission check at the top of `handlePlay`
(the `/play` and `/vplay` handler). -/
inductive PlayAdmission where
  | queueFull
  | proceed
deriving Repr, DecidableEq

/-- Embeds the queue-fullness guard at the top of `handlePlay`: the handler
replies "queue full" and returns — before any resolution or enqueue — iff
`len(cache.ChatCache.GetQueue(chatID)) > 10`. -/
def handlePlayCheck (m : ChatMap) (chatID : Int) : PlayAdmission × ChatMap :=
  if 10 < (GetQueue m chatID).length then (PlayAdmission.queueFull, m)
  else (PlayAdmission.proceed, m)

/-- Reply tag of the `/loop` handler. -/
inductive LoopOutcome where
  | noTrack
  | outOfRange
  | ok (n : Int)
deriving Repr, DecidableEq

/-- Embeds `loopHandler` (the `/loop` command) after argument parsing: the
chat must be active; a count outside `[0, 10]` is rejected before the store
is touched; otherwise `SetLoopCount` is applied (its boolean result is
ignored by the Go handler). -/
def loopHandler (m : ChatMap) (chatID : Int) (n : Int) : LoopOutcome × ChatMap :=
  if !(IsActive m chatID) then (LoopOutcome.noTrack, m)
  else if n < 0 || 10 < n then (LoopOutcome.outOfRange, m)
  else (LoopOutcome.ok n, (SetLoopCount m chatID n).2)

/-- Reply tag of the `/remove` handler. -/
inductive RemoveOutcome where
  | noTrack
  | emptyQueue
  | invalidNumber (len : Nat)
  | removed (n : Int)
deriving Repr, DecidableEq

/-- Embeds `removeHandler` (the `/remove` command) after argument parsing:
requires an active chat and a non-empty queue, validates
`1 ≤ trackNum ≤ len(queue)`, then calls `RemoveTrack` with `trackNum`
itself (which `RemoveTrack` interprets as a 0-based index; its boolean
result is ignored) and reports the track as removed. -/
def removeHandler (m : ChatMap) (chatID : Int) (trackNum : Int) :
    RemoveOutcome × ChatMap :=
  if !(IsActive m chatID) then (RemoveOutcome.noTrack, m)
  else
    let queue := GetQueue m chatID
    if queue.length = 0 then (RemoveOutcome.emptyQueue, m)
    else if trackNum ≤ 0 || (queue.length : Int) < trackNum then
      (RemoveOutcome.invalidNumber queue.length, m)
    else (RemoveOutcome.removed trackNum, (RemoveTrack m chatID trackNum).2)

/-!
Voice-engine adapter: `SeekStream` and the `/seek` handler.
-/

/-- A `play` issued to the media engine: embeds the arguments of
`TelegramCalls.PlayMedia`. -/
structure PlayCall where
  chatID : Int
  filePath : String
  isVideo : Bool
  ffmpegParams : String
deriving Repr, DecidableEq

/-- Boolean prefix test on character lists. -/
def charsPre : List Char → List Char → Bool
  | [], _ => true
  | _ :: _, [] => false
  | p :: ps, c :: cs => p == c && charsPre ps cs

/-- The Go regular expression `^https?://` as a predicate: it matches exactly
the strings beginning with `http://` or `https://`. -/
def isURLPath (s : String) : Bool :=
  charsPre "http://".toList s.toList || charsPre "https://".toList s.toList

/-- The seek parameter string `"-ss %d -i %s -to %d"` built by `SeekStream`
for a remote or missing input. -/
def seekParamsRemote (toSeek : Int) (filePath : String) (duration : Int) : String :=
  s!"-ss {toSeek} -i {filePath} -to {duration}"

/-- The seek parameter string `"-ss %d -to %d"` built by `SeekStream` for a
local file input. -/
def seekParamsLocal (toSeek duration : Int) : String :=
  s!"-ss {toSeek} -to {duration}"

/-- Embeds `TelegramCalls.SeekStream`: rejects `toSeek < 0 || duration <= 0`;
otherwise reissues a `play` whose ffmpeg parameters carry `-ss toSeek` and
`-to duration`, with an explicit `-i` only for remote or missing inputs.
`fsExists` stands for the `os.Stat` probe of the local filesystem. -/
def SeekStream (fsExists : String → Bool) (chatID : Int) (filePath : String)
    (toSeek duration : Int) (isVideo : Bool) : Except String PlayCall :=
  if toSeek < 0 || duration ≤ 0 then Except.error "invalid_seek"
  else
    let isFile := fsExists filePath
    let ffmpegParams :=
      if isURLPath filePath || !isFile then
        seekParamsRemote toSeek filePath duration
      else
        seekParamsLocal toSeek duration
    Except.ok { chatID := chatID, filePath := filePath, isVideo := isVideo,
                ffmpegParams := ffmpegParams }

/-- Reply tag of the `/seek` handler; `success` carries the `play` call
handed to the engine. -/
inductive SeekOutcome where
  | noTrack
  | minTime
  | beyondDuration
  | seekError (e : String)
  | success (call : PlayCall) (toSeek : Int)
deriving Repr, DecidableEq

/-- Whether a `/seek` outcome reached the engine. -/
def SeekOutcome.isSuccess : SeekOutcome → Bool
  | SeekOutcome.success _ _ => true
  | _ => false

/-- Embeds `seekHandler` (the `/seek` command) after argument parsing, with
`playedTime` standing for the successful `PlayedTime` engine query: requires
an active chat with a playing track, rejects `seekTime < 0 || seekTime < 20`,
computes `toSeek = playedTime + seekTime`, rejects `toSeek ≥ duration`, and
otherwise delegates to `SeekStream` on the current file path. -/
def seekHandler (fsExists : String → Bool) (m : ChatMap) (chatID : Int)
    (seekTime playedTime : Int) : SeekOutcome :=
  if !(IsActive m chatID) then SeekOutcome.noTrack
  else
    match GetPlayingTrack m chatID with
    | none => SeekOutcome.noTrack
    | some song =>
      if seekTime < 0 || seekTime < 20 then SeekOutcome.minTime
      else
        let toSeek := playedTime + seekTime
        if song.Duration ≤ toSeek then SeekOutcome.beyondDuration
        else
          match SeekStream fsExists chatID song.FilePath toSeek song.Duration song.IsVideo with
          | Except.error e => SeekOutcome.seekError e
          | Except.ok call => SeekOutcome.success call toSeek

/-!
Playback coordinator: `PlayNext` (the advance after a stream-end event),
`handleNoSong`, and `Stop`, from `pkg/vc/helpers.go`. Effects on the engine,
the filesystem and the chat become an explicit action trace.
-/

/-- An observable effect of the coordinator. -/
inductive Action where
  | download (t : CachedTrack)
  | play (t : CachedTrack)
  | releaseFile (path : String)
  | engineStop
  | notifyQueueFinished
deriving Repr, DecidableEq

/-- Embeds the success path of `TelegramCalls.playSong`: the song is
materialized (`downloadAndPrepareSong`) and then handed to the engine
(`PlayMedia`). Status-message sends and the download-failure retry into
`PlayNext` are elided; the store is not changed on this path. -/
def playSong (m : ChatMap) (_chatID : Int) (song : CachedTrack) :
    ChatMap × List Action :=
  (m, [Action.download song, Action.play song])

/-- Embeds `TelegramCalls.Stop`: clears the chat's cache entry (releasing its
files) and stops the engine call. -/
def StopCall (m : ChatMap) (chatID : Int) : ChatMap × List Action :=
  let (files, m1) := ClearChat m chatID true
  (m1, files.map Action.releaseFile ++ [Action.engineStop])

/-- Embeds `TelegramCalls.handleNoSong`: stops the call (which clears the
chat state) and notifies the chat once that the queue is finished. -/
def handleNoSong (m : ChatMap) (chatID : Int) : ChatMap × List Action :=
  let (m1, acts) := StopCall m chatID
  (m1, acts ++ [Action.notifyQueueFinished])

/-- The advance half of `TelegramCalls.PlayNext` (everything after the loop
branch): peek `queue[1]`; if present, pop the head releasing its files and
play the upcoming track; otherwise pop the head and fall to `handleNoSong`. -/
def PlayNextAdvance (m : ChatMap) (chatID : Int) : ChatMap × List Action :=
  match GetUpcomingTrack m chatID with
  | some nextSong =>
    let (_, files, m1) := RemoveCurrentSong m chatID true
    let (m2, acts) := playSong m1 chatID nextSong
    (m2, files.map Action.releaseFile ++ acts)
  | none =>
    let (_, files, m1) := RemoveCurrentSong m chatID true
    let (m2, acts) := handleNoSong m1 chatID
    (m2, files.map Action.releaseFile ++ acts)

/-- Embeds `TelegramCalls.PlayNext`, the reaction to a stream-end event: if
the head track's loop count is positive, decrement it and replay the current
track; otherwise advance. -/
def PlayNext (m : ChatMap) (chatID : Int) : ChatMap × List Action :=
  let loop := GetLoopCount m chatID
  if 0 < loop then
    let m1 := (SetLoopCount m chatID (loop - 1)).2
    match GetPlayingTrack m1 chatID with
    | some currentsSong => playSong m1 chatID currentsSong
    | none => PlayNextAdvance m1 chatID
  else PlayNextAdvance m chatID

/-- Number of engine `play` invocations on a given track id in a trace. -/
def countPlays (acts : List Action) (trackID : String) : Nat :=
  (acts.filter (fun a =>
    match a with
    | Action.play t => t.TrackID == trackID
    | _ => false)).length

/-!
HTTP request layer, from `pkg/core/dl/http_client.go`: the `sendRequest`
retry loop and the `DownloadFile` deadline.
-/

/-- Go `maxRetries = 2`: the bound of the attempt loop. -/
def maxRetries : Nat := 2

/-- Go `initialBackoff = 1 * time.Second`, counted here in seconds. -/
def initialBackoffSec : Nat := 1

/-- What one `client.Do(req)` call produces: a response with a status code,
or a network error that is or is not temporary (`isTemporaryError`). -/
inductive AttemptOutcome where
  | response (status : Nat)
  | netError (temporary : Bool)
deriving Repr, DecidableEq

/-- Result of the `sendRequest` loop: the status of a returned response (or
`none` on failure), the number of `client.Do` calls made, and the backoff
sleeps performed (in seconds, in order). -/
structure SendResult where
  ok : Option Nat
  attempts : Nat
  sleeps : List Nat
deriving Repr, DecidableEq

/-- The body of the `sendRequest` retry loop, with the environment's attempt
outcomes given as a function of the attempt index. The fuel argument is the
number of loop iterations left (`maxRetries - attempt`); before every
iteration but the first the loop sleeps `backoff` and doubles it. A response
with status below 500 is returned at once; a 5xx response or a temporary
network error lets the loop continue; a permanent error breaks out. -/
def sendRequestLoop (outcomes : Nat → AttemptOutcome) :
    Nat → Nat → Nat → List Nat → SendResult
  | 0, attempt, _, sleepsAcc =>
    { ok := none, attempts := attempt, sleeps := sleepsAcc.reverse }
  | fuel + 1, attempt, backoff, sleepsAcc =>
    let backoff2 := if 0 < attempt then backoff * 2 else backoff
    let sleepsAcc2 := if 0 < attempt then backoff :: sleepsAcc else sleepsAcc
    match outcomes attempt with
    | AttemptOutcome.response status =>
      if status < 500 then
        { ok := some status, attempts := attempt + 1, sleeps := sleepsAcc2.reverse }
      else sendRequestLoop outcomes fuel (attempt + 1) backoff2 sleepsAcc2
    | AttemptOutcome.netError temporary =>
      if temporary then sendRequestLoop outcomes fuel (attempt + 1) backoff2 sleepsAcc2
      else { ok := none, attempts := attempt + 1, sleeps := sleepsAcc2.reverse }

/-- Embeds `sendRequest`: runs the loop for `maxRetries` iterations starting
from attempt 0 with the initial backoff. -/
def sendRequest (outcomes : Nat → AttemptOutcome) : SendResult :=
  sendRequestLoop outcomes maxRetries 0 initialBackoffSec []

/-- Go `downloadTimeout = 300` from `pkg/core/dl/service.go`: an untyped
integer constant. `DownloadFile` passes it to `context.WithTimeout`, whose
parameter type `time.Duration` is a count of nanoseconds, so the constant
converts to a deadline of 300 nanoseconds. -/
def downloadTimeout : Int := 300

/-- The deadline, in nanoseconds, that `DownloadFile` installs on its context
via `context.WithTimeout(ctx, downloadTimeout)`. -/
def downloadFileDeadlineNs : Int := downloadTimeout

/-- Nanoseconds in three minutes, the deadline the specification names for
downloads. -/
def threeMinutesNs : Int := 3 * 60 * 1000000000

/-- Whether a transfer of the given elapsed time (nanoseconds) completes
within `DownloadFile`'s own deadline when the caller supplies no shorter
one. -/
def transferWithinDeadline (elapsedNs : Int) : Bool :=
  elapsedNs ≤ downloadFileDeadlineNs

/-!
Generic TTL cache, from the `cache` package (`Cache[T]`). Time is a
nanosecond timestamp `Int`; `Get` takes the current time as an argument in
place of `time.Now()`.
-/

/-- Embeds `CacheItem[T]`: a stored value and its expiration instant. -/
structure CacheItem (T : Type) where
  Value : T
  Expiration : Int
deriving Repr, DecidableEq

/-- Embeds `Cache[T]`: the keyed store and the default TTL. -/
structure TTLCache (T : Type) where
  data : String → Option (CacheItem T)
  ttl : Int

/-- Embeds `NewCache`: an empty store with the given default TTL. -/
def TTLCache.new (T : Type) (ttl : Int) : TTLCache T :=
  { data := fun _ => none, ttl := ttl }

/-- Embeds `Cache.Get`: a lookup followed by the expiration test
`time.Now().After(item.Expiration)`; reports a miss on an absent or expired
entry. The store component of the result is the store the method leaves
behind — the Go body performs no write, so it is the input store. -/
def TTLCache.get {T : Type} (c : TTLCache T) (key : String) (now : Int) :
    Option T × TTLCache T :=
  match c.data key with
  | none => (none, c)
  | some item => if item.Expiration < now then (none, c) else (some item.Value, c)

/-- Embeds `Cache.SetWithTTL`: stores the value with expiration
`now + ttl`. -/
def TTLCache.setWithTTL {T : Type} (c : TTLCache T) (key : String) (value : T)
    (ttl now : Int) : TTLCache T :=
  { c with data := fun k =>
      if k = key then some { Value := value, Expiration := now + ttl } else c.data k }

/-- Embeds `Cache.Set`: `SetWithTTL` with the default TTL. -/
def TTLCache.set {T : Type} (c : TTLCache T) (key : String) (value : T)
    (now : Int) : TTLCache T :=
  c.setWithTTL key value c.ttl now

/-- Embeds `Cache.Delete`. -/
def TTLCache.del {T : Type} (c : TTLCache T) (key : String) : TTLCache T :=
  { c with data := fun k => if k = key then none else c.data k }

/-- Embeds `Cache.Clear`. -/
def TTLCache.clear {T : Type} (c : TTLCache T) : TTLCache T :=
  { c with data := fun _ => none }

/-!
Reachability of queue-store states: sequences of the mutating `ChatCacher`
operations, for the activity invariant.
-/

/-- One mutating operation of the queue store. -/
inductive CacheOp where
  | addSong (chatID : Int) (t : CachedTrack)
  | setActive (chatID : Int) (b : Bool)
  | removeCurrent (chatID : Int) (diskClear : Bool)
  | removeTrack (chatID : Int) (index : Int)
  | setLoop (chatID : Int) (n : Int)
  | clearChat (chatID : Int) (diskClear : Bool)
deriving Repr, DecidableEq

/-- The chat id an operation addresses. -/
def opChatId : CacheOp → Int
  | CacheOp.addSong cid _ => cid
  | CacheOp.setActive cid _ => cid
  | CacheOp.removeCurrent cid _ => cid
  | CacheOp.removeTrack cid _ => cid
  | CacheOp.setLoop cid _ => cid
  | CacheOp.clearChat cid _ => cid

/-- Effect of one operation on the store (file effects dropped). -/
def applyOp (m : ChatMap) : CacheOp → ChatMap
  | CacheOp.addSong c t => AddSong m c t
  | CacheOp.setActive c b => SetActive m c b
  | CacheOp.removeCurrent c dc => (RemoveCurrentSong m c dc).2.2
  | CacheOp.removeTrack c i => (RemoveTrack m c i).2
  | CacheOp.setLoop c n => (SetLoopCount m c n).2
  | CacheOp.clearChat c dc => (ClearChat m c dc).2

/-- Effect of a sequence of operations, applied left to right. -/
def applyOps (m : ChatMap) : List CacheOp → ChatMap
  | [] => m
  | op :: rest => applyOps (applyOp m op) rest

/-- The activity invariant: every active chat has a non-empty queue. -/
def QueueInv (m : ChatMap) : Prop :=
  ∀ c : Int, IsActive m c = true → 1 ≤ GetQueueLength m c

/-- Side condition under which one operation preserves the activity
invariant: `SetActive(c, true)` only on a chat whose queue is non-empty, and
a removal only on an inactive chat or one with at least two queued tracks. -/
def opSafe (m : ChatMap) : CacheOp → Bool
  | CacheOp.addSong _ _ => true
  | CacheOp.setActive c b => !b || decide (1 ≤ GetQueueLength m c)
  | CacheOp.removeCurrent c _ => !(IsActive m c) || decide (2 ≤ GetQueueLength m c)
  | CacheOp.removeTrack c _ => !(IsActive m c) || decide (2 ≤ GetQueueLength m c)
  | CacheOp.setLoop _ _ => true
  | CacheOp.clearChat _ _ => true

/-- A sequence of operations is safe from a state when each operation is
safe in the state it runs in. -/
def SeqSafe (m : ChatMap) : List CacheOp → Bool
  | [] => true
  | op :: rest => opSafe m op && SeqSafe (applyOp m op) rest

/-- A sample queued track used by concrete witnesses. -/
def sampleTrack : CachedTrack :=
  { URL := "https://example.com/a", Name := "Song A", Loop := 0, User := "u",
    FilePath := "/tmp/a.mp3", TrackID := "A1", Duration := 100,
    IsVideo := false, Platform := "youtube" }

/-- A chat (id 1) whose queue already holds exactly 10 entries. -/
def tenTrackState : ChatMap :=
  mapSet emptyChats 1 { IsActive := true, Queue := List.replicate 10 sampleTrack }

/-- A chat (id 1) with a single queued track, used to witness C5. -/
def loopStateEx : ChatMap :=
  mapSet emptyChats 1 { IsActive := true, Queue := [sampleTrack] }

/-- Two distinct sample tracks and a chat (id 1) whose queue is
`[trackA, trackB]`, used against the `/remove` claim. -/
def trackA : CachedTrack := { sampleTrack with TrackID := "A", Name := "A" }

def trackB : CachedTrack := { sampleTrack with TrackID := "B", Name := "B" }

def removeStateAB : ChatMap :=
  mapSet emptyChats 1 { IsActive := true, Queue := [trackA, trackB] }

/-- A chat (id 2) with five queued tracks, to witness the amended C4. -/
def removeState5 : ChatMap :=
  mapSet emptyChats 2 { IsActive := true, Queue := List.replicate 5 sampleTrack }

/-- The filesystem probe that reports every path as an existing file. -/
def fsAlways : String → Bool := fun _ => true

/-- A 100-second local track, and chats (ids 7 and 8) actively playing it,
used for the seek claim. -/
def track100 : CachedTrack := { sampleTrack with Duration := 100 }

def seekStateEx : ChatMap :=
  mapSet emptyChats 7 { IsActive := true, Queue := [track100] }

def seekStateW : ChatMap :=
  mapSet emptyChats 8 { IsActive := true, Queue := [track100] }

/-- The file-release effects of popping the given head track with
`diskClear` set (the `os.Remove` calls of `RemoveCurrentSong`). -/
def releaseActions (t : CachedTrack) : List Action :=
  (if t.FilePath != "" then
    [t.FilePath, "database/photos/" ++ t.TrackID ++ ".png"]
  else []).map Action.releaseFile

/-- A head track with two loops remaining, and concrete chats (id 5) in the
three configurations `PlayNext` distinguishes, for the C1 witness. -/
def trackL3 : CachedTrack := { sampleTrack with Loop := 3 }

def playStateLoop : ChatMap :=
  mapSet emptyChats 5 { IsActive := true, Queue := [trackL3, trackB] }

def playStateAdvance : ChatMap :=
  mapSet emptyChats 5 { IsActive := true, Queue := [sampleTrack, trackB] }

def playStateLast : ChatMap :=
  mapSet emptyChats 5 { IsActive := true, Queue := [sampleTrack] }

/-!
Theorems.
-/

@[simp] theorem mapSet_self (m : ChatMap) (c : Int) (d : ChatData) :
    mapSet m c d c = some d := by
  simp [mapSet]

theorem mapSet_ne (m : ChatMap) (c i : Int) (d : ChatData) (h : i ≠ c) :
    mapSet m c d i = m i := by
  simp [mapSet, h]

@[simp] theorem mapDel_self (m : ChatMap) (c : Int) : mapDel m c c = none := by
  simp [mapDel]

theorem mapDel_ne (m : ChatMap) (c i : Int) (h : i ≠ c) : mapDel m c i = m i := by
  simp [mapDel, h]

/-- C9: for a chat with no state in the queue store, the first `AddSong`
creates the chat's state with the active flag already true, so `IsActive`
returns true immediately after the first add even though `SetActive` was
never called; the new queue has exactly the added song. -/
theorem C9_first_addSong_is_active (m : ChatMap) (c : Int) (t : CachedTrack)
    (h : m c = none) :
    IsActive (AddSong m c t) c = true ∧ GetQueueLength (AddSong m c t) c = 1 := by
  simp [AddSong, IsActive, GetQueueLength, h]

/-- Witness for C9 at the empty store and chat 3. -/
theorem C9_witness :
    emptyChats 3 = none ∧
    (IsActive (AddSong emptyChats 3 sampleTrack) 3 = true ∧
     GetQueueLength (AddSong emptyChats 3 sampleTrack) 3 = 1) :=
  ⟨rfl, C9_first_addSong_is_active emptyChats 3 sampleTrack rfl⟩

/-- C2 counterexample: with exactly 10 queued entries the `/play` handler's
queue-fullness guard does not reject — `len(queue) > 10` is false at 10 — so
the claim that a request at exactly 10 entries is rejected is false. -/
theorem C2_counterexample :
    (handlePlayCheck tenTrackState 1).1 = PlayAdmission.proceed ∧
    (GetQueue tenTrackState 1).length = 10 := by
  constructor
  · rfl
  · rfl

/-- C2 (amended): the `/play` handler rejects with a queue-full error iff
the chat's queue length exceeds 10 (that is, holds at least 11 entries), and
the rejection appends nothing; at exactly 10 entries the request passes the
queue-fullness check. -/
theorem C2_queue_full_guard (m : ChatMap) (c : Int) :
    ((handlePlayCheck m c).1 = PlayAdmission.queueFull ↔ 10 < (GetQueue m c).length)
    ∧ (handlePlayCheck m c).2 = m := by
  unfold handlePlayCheck
  constructor
  · constructor
    · intro h
      by_contra hlen
      simp [if_neg hlen] at h
    · intro h
      simp [if_pos h]
  · split <;> rfl

/-- C8: `DownloadFile` wraps its context in
`context.WithTimeout(ctx, downloadTimeout)` where `downloadTimeout = 300` is
an untyped constant converted to `time.Duration` — 300 nanoseconds, not the
3 minutes the specification gives as the download deadline: a transfer
taking one second (10⁹ ns) already exceeds the installed deadline. -/
theorem C8_download_deadline_is_300ns :
    downloadFileDeadlineNs = 300
    ∧ downloadFileDeadlineNs < threeMinutesNs
    ∧ transferWithinDeadline 1000000000 = false := by
  refine ⟨rfl, by decide, by decide⟩

/-- C5: on a chat with a non-empty queue, `SetLoopCount` succeeds for every
`n` and a subsequent `GetLoopCount` returns `n` (the `[0, 10]` range check
lives in the `/loop` handler, which rejects any `n` outside the range before
the store is touched, leaving the state unchanged). -/
theorem C5_loop_roundtrip_and_range :
    (∀ (m : ChatMap) (c n : Int) (d : ChatData), m c = some d → d.Queue ≠ [] →
      (SetLoopCount m c n).1 = true ∧ GetLoopCount (SetLoopCount m c n).2 c = n)
    ∧ (∀ (m : ChatMap) (c n : Int), n < 0 ∨ 10 < n →
      (loopHandler m c n).2 = m ∧ ∀ k, (loopHandler m c n).1 ≠ LoopOutcome.ok k) := by
  constructor
  · intro m c n d hm hq
    match hd : d.Queue with
    | [] => exact absurd hd hq
    | t :: rest =>
      simp [SetLoopCount, GetLoopCount, hm, hd]
  · intro m c n hn
    unfold loopHandler
    by_cases hact : IsActive m c
    · have hcond : (n < 0 || 10 < n) = true := by
        rcases hn with h | h <;> simp [h]
      simp [hact, hcond]
    · simp [hact]

/-- Witness for C5: setting loop 7 on a one-track queue succeeds and reads
back 7; the handler rejects 11 leaving the store unchanged. -/
theorem C5_witness :
    ((SetLoopCount loopStateEx 1 7).1 = true ∧
     GetLoopCount (SetLoopCount loopStateEx 1 7).2 1 = 7)
    ∧ ((loopHandler loopStateEx 1 11).2 = loopStateEx ∧
       ∀ k, (loopHandler loopStateEx 1 11).1 ≠ LoopOutcome.ok k) :=
  ⟨C5_loop_roundtrip_and_range.1 loopStateEx 1 7 _ rfl (by decide),
   C5_loop_roundtrip_and_range.2 loopStateEx 1 11 (Or.inr (by decide))⟩

theorem eraseIdx_succ_head {α : Type} (l : List α) (k : Nat) :
    (l.eraseIdx (k + 1)).head? = l.head? := by
  cases l <;> rfl

theorem RemoveTrack_eq (m : ChatMap) (c i : Int) (d : ChatData) (hm : m c = some d) :
    RemoveTrack m c i =
      if (i < 0 || (d.Queue.length : Int) ≤ i) then (false, m)
      else (true, mapSet m c { d with Queue := d.Queue.eraseIdx i.toNat }) := by
  unfold RemoveTrack
  rw [hm]

/-- C4 counterexample: on the active queue `[trackA, trackB]`, `/remove 1`
is not rejected — the handler reports track 1 removed — and it removes the
second entry, leaving `[trackA]`; the claim says a remove of index 1 is
rejected and removes nothing. -/
theorem C4_counterexample :
    (removeHandler removeStateAB 1 1).1 = RemoveOutcome.removed 1 ∧
    GetQueue ((removeHandler removeStateAB 1 1).2) 1 = [trackA] := by
  constructor
  · rfl
  · rfl

/-- C4 (amended): the `/remove` handler validates `1 ≤ i ≤ L` and then hands
`i` to `RemoveTrack` unchanged, which treats it as a 0-based index: the
handler always reports success; for `i < L` the entry at 0-based position
`i` — the `(i+1)`-th — is removed (so `/remove 3` on a length-5 queue leaves
length 4); for `i = L` nothing is removed though success is still reported;
and the head is never removed — the queue's head is preserved in every
case. -/
theorem C4_remove_shifted (m : ChatMap) (c i : Int) (d : ChatData)
    (hm : m c = some d) (hact : d.IsActive = true)
    (h1 : 1 ≤ i) (h2 : i ≤ (d.Queue.length : Int)) :
    (removeHandler m c i).1 = RemoveOutcome.removed i
    ∧ (i < (d.Queue.length : Int) →
        (removeHandler m c i).2 c = some { d with Queue := d.Queue.eraseIdx i.toNat }
        ∧ GetQueueLength ((removeHandler m c i).2) c = d.Queue.length - 1)
    ∧ (i = (d.Queue.length : Int) → (removeHandler m c i).2 = m)
    ∧ (GetQueue ((removeHandler m c i).2) c).head? = d.Queue.head? := by
  have hactive : IsActive m c = true := by simp [IsActive, hm, hact]
  have hqlen : 1 ≤ d.Queue.length := by
    by_contra hq
    have : d.Queue.length = 0 := by omega
    rw [this] at h2
    omega
  have hne : ¬ d.Queue.length = 0 := by omega
  have hguard : ¬ (i ≤ 0 || (d.Queue.length : Int) < i) = true := by
    simp only [Bool.or_eq_true, decide_eq_true_eq, not_or]
    constructor <;> omega
  have hqueue : GetQueue m c = d.Queue := by simp [GetQueue, hm]
  have hhandler : removeHandler m c i =
      (RemoveOutcome.removed i, (RemoveTrack m c i).2) := by
    unfold removeHandler
    rw [hactive]
    simp only [Bool.not_true, Bool.false_eq_true, if_false, hqueue]
    rw [if_neg hne, if_neg hguard]
  refine ⟨by rw [hhandler], ?_, ?_, ?_⟩
  · intro hlt
    have hrt : ¬ (i < 0 || (d.Queue.length : Int) ≤ i) = true := by
      simp only [Bool.or_eq_true, decide_eq_true_eq, not_or]
      constructor <;> omega
    have : RemoveTrack m c i =
        (true, mapSet m c { d with Queue := d.Queue.eraseIdx i.toNat }) := by
      rw [RemoveTrack_eq m c i d hm, if_neg hrt]
    rw [hhandler, this]
    have hlen : i.toNat < d.Queue.length := by omega
    constructor
    · simp
    · simp only [GetQueueLength, mapSet_self]
      have := List.length_eraseIdx_add_one hlen
      omega
  · intro heq
    have hrt : (i < 0 || (d.Queue.length : Int) ≤ i) = true := by
      simp only [Bool.or_eq_true, decide_eq_true_eq]
      omega
    have : RemoveTrack m c i = (false, m) := by
      rw [RemoveTrack_eq m c i d hm, if_pos hrt]
    rw [hhandler, this]
  · rw [hhandler]
    by_cases hlt : i < (d.Queue.length : Int)
    · have hrt : ¬ (i < 0 || (d.Queue.length : Int) ≤ i) = true := by
        simp only [Bool.or_eq_true, decide_eq_true_eq, not_or]
        constructor <;> omega
      have heq : RemoveTrack m c i =
          (true, mapSet m c { d with Queue := d.Queue.eraseIdx i.toNat }) := by
        rw [RemoveTrack_eq m c i d hm, if_neg hrt]
      rw [heq]
      simp only [GetQueue, mapSet_self]
      have hk : i.toNat = (i.toNat - 1) + 1 := by omega
      rw [hk, eraseIdx_succ_head]
    · have hrt : (i < 0 || (d.Queue.length : Int) ≤ i) = true := by
        simp only [Bool.or_eq_true, decide_eq_true_eq]
        omega
      have heq : RemoveTrack m c i = (false, m) := by
        rw [RemoveTrack_eq m c i d hm, if_pos hrt]
      rw [heq]
      simp [GetQueue, hm]

/-- Witness for C4: `/remove 3` on a length-5 queue reports success and the
queue length becomes 4, with the head preserved. -/
theorem C4_witness :
    (removeHandler removeState5 2 3).1 = RemoveOutcome.removed 3 ∧
    GetQueueLength ((removeHandler removeState5 2 3).2) 2 = 4 ∧
    (GetQueue ((removeHandler removeState5 2 3).2) 2).head? = some sampleTrack := by
  have h := C4_remove_shifted removeState5 2 3 _ rfl rfl (by decide) (by decide)
  exact ⟨h.1, (h.2.1 (by decide)).2, h.2.2.2⟩

/-- C3 counterexample: with a playing 100-second track, 90 seconds already
played and delta 9 — so `played + to = 99 = duration - 1` — the `/seek`
handler rejects with the minimum-seek error (`seekTime < 20`) and never
reaches the engine; the claim says this request is accepted. -/
theorem C3_counterexample :
    seekHandler fsAlways seekStateEx 7 9 90 = SeekOutcome.minTime ∧
    track100.Duration = 100 := by
  constructor
  · rfl
  · rfl

/-- C3 (amended): for an active chat with a playing track of known duration,
a seek with delta `to` is rejected with no engine call when `to < 20` (which
subsumes `to < 0`) or when `played + to ≥ duration`; when `to ≥ 20` and
`played + to = duration - 1` it is accepted and the engine receives a
reissued play whose input-seek flags are `-ss (played + to) -to duration` on
the current local path. -/
theorem C3_seek_behavior (fs : String → Bool) (m : ChatMap) (c : Int)
    (song : CachedTrack) (seekTime playedTime : Int)
    (hact : IsActive m c = true) (hsong : GetPlayingTrack m c = some song)
    (hplayed : 0 ≤ playedTime) :
    (seekTime < 20 → seekHandler fs m c seekTime playedTime = SeekOutcome.minTime)
    ∧ (20 ≤ seekTime → song.Duration ≤ playedTime + seekTime →
        seekHandler fs m c seekTime playedTime = SeekOutcome.beyondDuration)
    ∧ (20 ≤ seekTime → playedTime + seekTime = song.Duration - 1 →
        isURLPath song.FilePath = false → fs song.FilePath = true →
        seekHandler fs m c seekTime playedTime =
          SeekOutcome.success
            { chatID := c, filePath := song.FilePath, isVideo := song.IsVideo,
              ffmpegParams := seekParamsLocal (playedTime + seekTime) song.Duration }
            (playedTime + seekTime)) := by
  have hbase : seekHandler fs m c seekTime playedTime =
      (if seekTime < 0 || seekTime < 20 then SeekOutcome.minTime
       else if song.Duration ≤ playedTime + seekTime then SeekOutcome.beyondDuration
       else match SeekStream fs c song.FilePath (playedTime + seekTime) song.Duration
            song.IsVideo with
            | Except.error e => SeekOutcome.seekError e
            | Except.ok call => SeekOutcome.success call (playedTime + seekTime)) := by
    unfold seekHandler
    rw [hact, hsong]
    rfl
  refine ⟨?_, ?_, ?_⟩
  · intro hlt
    rw [hbase, if_pos]
    simp [hlt]
  · intro hge hover
    rw [hbase, if_neg, if_pos hover]
    simp only [Bool.or_eq_true, decide_eq_true_eq, not_or]
    constructor <;> omega
  · intro hge hexact hurl hfs
    have hnotover : ¬ song.Duration ≤ playedTime + seekTime := by omega
    rw [hbase, if_neg, if_neg hnotover]
    · have hstream : SeekStream fs c song.FilePath (playedTime + seekTime)
          song.Duration song.IsVideo =
          Except.ok { chatID := c, filePath := song.FilePath, isVideo := song.IsVideo,
                      ffmpegParams := seekParamsLocal (playedTime + seekTime) song.Duration } := by
        have hcond : (decide (playedTime + seekTime < 0) || decide (song.Duration ≤ 0)) = false := by
          simp only [Bool.or_eq_false_iff, decide_eq_false_iff_not]
          constructor <;> omega
        unfold SeekStream
        rw [hcond]
        simp [hurl, hfs]
      rw [hstream]
    · simp only [Bool.or_eq_true, decide_eq_true_eq, not_or]
      constructor <;> omega

/-- Witness for C3: delta 5 is rejected as below the 20-second minimum;
delta 30 at 80 s played overshoots a 100-second track; delta 29 at 70 s
played (`70 + 29 = 99 = 100 - 1`) is accepted with flags `-ss 99 -to 100`
on the track's local path. -/
theorem C3_witness :
    seekHandler fsAlways seekStateW 8 5 90 = SeekOutcome.minTime
    ∧ seekHandler fsAlways seekStateW 8 30 80 = SeekOutcome.beyondDuration
    ∧ seekHandler fsAlways seekStateW 8 29 70 =
        SeekOutcome.success
          { chatID := 8, filePath := track100.FilePath, isVideo := track100.IsVideo,
            ffmpegParams := seekParamsLocal (70 + 29) track100.Duration }
          (70 + 29) := by
  refine ⟨(C3_seek_behavior fsAlways seekStateW 8 track100 5 90 rfl rfl (by decide)).1
      (by decide),
    (C3_seek_behavior fsAlways seekStateW 8 track100 30 80 rfl rfl (by decide)).2.1
      (by decide) (by decide),
    (C3_seek_behavior fsAlways seekStateW 8 track100 29 70 rfl rfl (by decide)).2.2
      (by decide) (by decide) (by decide) (by decide)⟩

theorem playNext_loop_branch (m : ChatMap) (c : Int) (d : ChatData)
    (t : CachedTrack) (rest : List CachedTrack)
    (hm : m c = some d) (hq : d.Queue = t :: rest) (hl : 0 < t.Loop) :
    PlayNext m c =
      (mapSet m c { d with Queue := { t with Loop := t.Loop - 1 } :: rest },
       [Action.download { t with Loop := t.Loop - 1 },
        Action.play { t with Loop := t.Loop - 1 }]) := by
  have hloop : GetLoopCount m c = t.Loop := by
    simp [GetLoopCount, hm, hq]
  have hset : SetLoopCount m c (t.Loop - 1) =
      (true, mapSet m c { d with Queue := { t with Loop := t.Loop - 1 } :: rest }) := by
    simp [SetLoopCount, hm, hq]
  have hplay : GetPlayingTrack
      (mapSet m c { d with Queue := { t with Loop := t.Loop - 1 } :: rest }) c =
      some { t with Loop := t.Loop - 1 } := by
    simp [GetPlayingTrack]
  unfold PlayNext
  rw [hloop, if_pos hl, hset]
  simp only [hplay]
  simp [playSong]

theorem playNext_next_branch (m : ChatMap) (c : Int) (d : ChatData)
    (t nextSong : CachedTrack) (rest : List CachedTrack)
    (hm : m c = some d) (hq : d.Queue = t :: nextSong :: rest) (hl : t.Loop ≤ 0) :
    PlayNext m c =
      (mapSet m c { d with Queue := nextSong :: rest },
       releaseActions t ++ [Action.download nextSong, Action.play nextSong]) := by
  have hloop : GetLoopCount m c = t.Loop := by
    simp [GetLoopCount, hm, hq]
  have hup : GetUpcomingTrack m c = some nextSong := by
    simp [GetUpcomingTrack, hm, hq]
  unfold PlayNext
  rw [hloop, if_neg (by omega)]
  unfold PlayNextAdvance
  rw [hup]
  simp [RemoveCurrentSong, hm, hq, playSong, releaseActions]

theorem playNext_finish_branch (m : ChatMap) (c : Int) (d : ChatData)
    (t : CachedTrack)
    (hm : m c = some d) (hq : d.Queue = [t]) (hl : t.Loop ≤ 0) :
    PlayNext m c =
      (mapDel (mapSet m c { d with Queue := [] }) c,
       releaseActions t ++ [Action.engineStop, Action.notifyQueueFinished]) := by
  have hloop : GetLoopCount m c = t.Loop := by
    simp [GetLoopCount, hm, hq]
  have hup : GetUpcomingTrack m c = none := by
    simp [GetUpcomingTrack, hm, hq]
  unfold PlayNext
  rw [hloop, if_neg (by omega)]
  unfold PlayNextAdvance
  rw [hup]
  simp [RemoveCurrentSong, hm, hq, handleNoSong, StopCall, ClearChat, releaseActions]

/-- C1: advance after a stream-end event follows exactly the specified
steps. With head track `t`: (1) if `t.Loop > 0` the loop count is
decremented and `play` is re-invoked on the same current track; (2) else the
head is popped with its files released and, when an upcoming track exists,
it is materialized and played; (3) else the head is popped, the engine is
stopped, the chat's state is cleared (its entry becomes absent) and the chat
is notified exactly once that the queue finished. (4) After `SetLoop(c, 2)`,
the first two stream-end events each re-play the current track — three
plays in total counting the initial one — and the third stream-end event
plays the next track once and the old track not at all. -/
theorem C1_advance_after_stream_end :
    (∀ (m : ChatMap) (c : Int) (d : ChatData) (t : CachedTrack)
        (rest : List CachedTrack), m c = some d → d.Queue = t :: rest → 0 < t.Loop →
      PlayNext m c =
        (mapSet m c { d with Queue := { t with Loop := t.Loop - 1 } :: rest },
         [Action.download { t with Loop := t.Loop - 1 },
          Action.play { t with Loop := t.Loop - 1 }]))
    ∧ (∀ (m : ChatMap) (c : Int) (d : ChatData) (t nextSong : CachedTrack)
        (rest : List CachedTrack), m c = some d → d.Queue = t :: nextSong :: rest →
        t.Loop ≤ 0 →
      PlayNext m c =
        (mapSet m c { d with Queue := nextSong :: rest },
         releaseActions t ++ [Action.download nextSong, Action.play nextSong]))
    ∧ (∀ (m : ChatMap) (c : Int) (d : ChatData) (t : CachedTrack),
        m c = some d → d.Queue = [t] → t.Loop ≤ 0 →
      (PlayNext m c).1 c = none ∧
      (PlayNext m c).2 = releaseActions t ++ [Action.engineStop, Action.notifyQueueFinished])
    ∧ (∀ (m : ChatMap) (c : Int) (d : ChatData) (t u : CachedTrack)
        (rest : List CachedTrack), m c = some d → d.Queue = t :: u :: rest →
        t.TrackID ≠ u.TrackID →
      countPlays (PlayNext (SetLoopCount m c 2).2 c).2 t.TrackID = 1
      ∧ countPlays (PlayNext (PlayNext (SetLoopCount m c 2).2 c).1 c).2 t.TrackID = 1
      ∧ countPlays (PlayNext (PlayNext (PlayNext (SetLoopCount m c 2).2 c).1 c).1 c).2 u.TrackID = 1
      ∧ countPlays (PlayNext (PlayNext (PlayNext (SetLoopCount m c 2).2 c).1 c).1 c).2 t.TrackID = 0) := by
  refine ⟨playNext_loop_branch, playNext_next_branch, ?_, ?_⟩
  · intro m c d t hm hq hl
    rw [playNext_finish_branch m c d t hm hq hl]
    constructor
    · simp
    · rfl
  · intro m c d t u rest hm hq hne
    have hset0 : (SetLoopCount m c 2).2 =
        mapSet m c { d with Queue := { t with Loop := 2 } :: u :: rest } := by
      simp [SetLoopCount, hm, hq]
    have hm0 : (SetLoopCount m c 2).2 c =
        some { d with Queue := { t with Loop := 2 } :: u :: rest } := by
      rw [hset0]
      exact mapSet_self _ _ _
    have h1 : PlayNext (SetLoopCount m c 2).2 c =
        (mapSet (SetLoopCount m c 2).2 c
          { d with Queue := { t with Loop := 1 } :: u :: rest },
         [Action.download { t with Loop := 1 }, Action.play { t with Loop := 1 }]) :=
      playNext_loop_branch (SetLoopCount m c 2).2 c
        { d with Queue := { t with Loop := 2 } :: u :: rest } { t with Loop := 2 }
        (u :: rest) hm0 rfl (by simp)
    have hm1 : (PlayNext (SetLoopCount m c 2).2 c).1 c =
        some { d with Queue := { t with Loop := 1 } :: u :: rest } := by
      rw [h1]
      exact mapSet_self _ _ _
    have h2 : PlayNext (PlayNext (SetLoopCount m c 2).2 c).1 c =
        (mapSet (PlayNext (SetLoopCount m c 2).2 c).1 c
          { d with Queue := { t with Loop := 0 } :: u :: rest },
         [Action.download { t with Loop := 0 }, Action.play { t with Loop := 0 }]) :=
      playNext_loop_branch (PlayNext (SetLoopCount m c 2).2 c).1 c
        { d with Queue := { t with Loop := 1 } :: u :: rest } { t with Loop := 1 }
        (u :: rest) hm1 rfl (by simp)
    have hm2 : (PlayNext (PlayNext (SetLoopCount m c 2).2 c).1 c).1 c =
        some { d with Queue := { t with Loop := 0 } :: u :: rest } := by
      rw [h2]
      exact mapSet_self _ _ _
    have h3 : PlayNext (PlayNext (PlayNext (SetLoopCount m c 2).2 c).1 c).1 c =
        (mapSet (PlayNext (PlayNext (SetLoopCount m c 2).2 c).1 c).1 c
          { d with Queue := u :: rest },
         releaseActions { t with Loop := 0 } ++
           [Action.download u, Action.play u]) :=
      playNext_next_branch (PlayNext (PlayNext (SetLoopCount m c 2).2 c).1 c).1 c
        { d with Queue := { t with Loop := 0 } :: u :: rest } { t with Loop := 0 }
        u rest hm2 rfl (by simp)
    have htt : (t.TrackID == t.TrackID) = true := by simp
    have hut : (u.TrackID == t.TrackID) = false := by
      simp [Ne.symm hne]
    have htu : (t.TrackID == u.TrackID) = false := by
      simp [hne]
    have huu : (u.TrackID == u.TrackID) = true := by simp
    refine ⟨?_, ?_, ?_, ?_⟩
    · rw [h1]
      simp [countPlays, htt]
    · rw [h2]
      simp [countPlays, htt]
    · rw [h3]
      simp only [countPlays, releaseActions]
      split <;> simp [huu, hut]
    · rw [h3]
      simp only [countPlays, releaseActions]
      split <;> simp [hut, htu]

/-- Witness for C1 at concrete chat-5 states: a loop replay, an advance to
the next track, the final stop-and-notify, and the `/loop 2` scenario in
which the two stream-end events replay the same track (three plays in total
with the initial one) before the third advances to the next track. -/
theorem C1_witness :
    PlayNext playStateLoop 5 =
      (mapSet playStateLoop 5
        { IsActive := true, Queue := [{ trackL3 with Loop := 2 }, trackB] },
       [Action.download { trackL3 with Loop := 2 }, Action.play { trackL3 with Loop := 2 }])
    ∧ PlayNext playStateAdvance 5 =
      (mapSet playStateAdvance 5 { IsActive := true, Queue := [trackB] },
       releaseActions sampleTrack ++ [Action.download trackB, Action.play trackB])
    ∧ ((PlayNext playStateLast 5).1 5 = none ∧
       (PlayNext playStateLast 5).2 =
         releaseActions sampleTrack ++ [Action.engineStop, Action.notifyQueueFinished])
    ∧ (countPlays (PlayNext (SetLoopCount playStateAdvance 5 2).2 5).2
         sampleTrack.TrackID = 1
       ∧ countPlays (PlayNext (PlayNext (SetLoopCount playStateAdvance 5 2).2 5).1 5).2
           sampleTrack.TrackID = 1
       ∧ countPlays
           (PlayNext (PlayNext (PlayNext (SetLoopCount playStateAdvance 5 2).2 5).1 5).1 5).2
           trackB.TrackID = 1
       ∧ countPlays
           (PlayNext (PlayNext (PlayNext (SetLoopCount playStateAdvance 5 2).2 5).1 5).1 5).2
           sampleTrack.TrackID = 0) := by
  refine ⟨?_, ?_, ?_, ?_⟩
  · exact C1_advance_after_stream_end.1 playStateLoop 5
      { IsActive := true, Queue := [trackL3, trackB] } trackL3 [trackB]
      rfl rfl (by decide)
  · exact C1_advance_after_stream_end.2.1 playStateAdvance 5
      { IsActive := true, Queue := [sampleTrack, trackB] } sampleTrack trackB []
      rfl rfl (by decide)
  · exact C1_advance_after_stream_end.2.2.1 playStateLast 5
      { IsActive := true, Queue := [sampleTrack] } sampleTrack
      rfl rfl (by decide)
  · exact C1_advance_after_stream_end.2.2.2 playStateAdvance 5
      { IsActive := true, Queue := [sampleTrack, trackB] } sampleTrack trackB []
      rfl rfl (by decide)

theorem IsActive_congr (m m' : ChatMap) (c : Int) (h : m' c = m c) :
    IsActive m' c = IsActive m c := by
  unfold IsActive
  rw [h]

theorem GetQueueLength_congr (m m' : ChatMap) (c : Int) (h : m' c = m c) :
    GetQueueLength m' c = GetQueueLength m c := by
  unfold GetQueueLength
  rw [h]

theorem applyOp_other (m : ChatMap) (op : CacheOp) (c : Int)
    (h : c ≠ opChatId op) : applyOp m op c = m c := by
  cases op with
  | addSong cid t =>
    simp only [opChatId] at h
    simp only [applyOp]
    unfold AddSong
    cases m cid <;> simp [mapSet, h]
  | setActive cid b =>
    simp only [opChatId] at h
    simp only [applyOp]
    unfold SetActive
    cases m cid <;> simp [mapSet, h]
  | removeCurrent cid dc =>
    simp only [opChatId] at h
    simp only [applyOp]
    unfold RemoveCurrentSong
    cases hm : m cid with
    | none => simp
    | some d =>
      cases hq : d.Queue with
      | nil => simp [hq]
      | cons x xs => simp [hq, mapSet, h]
  | removeTrack cid i =>
    simp only [opChatId] at h
    simp only [applyOp]
    unfold RemoveTrack
    cases hm : m cid with
    | none => simp
    | some d =>
      by_cases hb : (i < 0 || (d.Queue.length : Int) ≤ i) = true
      · simp [hb]
      · simp [hb, mapSet, h]
  | setLoop cid n =>
    simp only [opChatId] at h
    simp only [applyOp]
    unfold SetLoopCount
    cases hm : m cid with
    | none => simp
    | some d =>
      cases hq : d.Queue with
      | nil => simp [hq]
      | cons x xs => simp [hq, mapSet, h]
  | clearChat cid dc =>
    simp only [opChatId] at h
    simp only [applyOp]
    unfold ClearChat
    cases hm : m cid with
    | none => simp
    | some d => simp [mapDel, h]

theorem queueInv_step (m : ChatMap) (op : CacheOp)
    (hinv : QueueInv m) (hsafe : opSafe m op = true) :
    QueueInv (applyOp m op) := by
  intro c hact
  by_cases hc : c = opChatId op
  case neg =>
    have hl := applyOp_other m op c hc
    rw [IsActive_congr m _ c hl] at hact
    rw [GetQueueLength_congr m _ c hl]
    exact hinv c hact
  case pos =>
  cases op with
  | addSong cid t =>
    simp only [opChatId] at hc
    subst hc
    simp only [applyOp] at hact ⊢
    unfold AddSong at hact ⊢
    cases hm : m c <;>
      simp [hm, IsActive, GetQueueLength, mapSet_self] at hact ⊢
  | setActive cid b =>
    simp only [opChatId] at hc
    subst hc
    simp only [applyOp] at hact ⊢
    unfold SetActive at hact ⊢
    cases hm : m c with
    | none =>
      simp [hm, IsActive, mapSet_self] at hact
      subst hact
      simp [opSafe, GetQueueLength, hm] at hsafe
    | some d =>
      simp [hm, IsActive, mapSet_self] at hact
      subst hact
      simp [opSafe, GetQueueLength, hm, IsActive] at hsafe
      simpa [hm, GetQueueLength, mapSet_self] using hsafe
  | removeCurrent cid dc =>
    simp only [opChatId] at hc
    subst hc
    simp only [applyOp] at hact ⊢
    unfold RemoveCurrentSong at hact ⊢
    cases hm : m c with
    | none =>
      simp [hm, IsActive, GetQueueLength] at hact ⊢
    | some d =>
      cases hq : d.Queue with
      | nil =>
        simp [hq, IsActive, hm, GetQueueLength] at hact ⊢
        have := hinv c
        simp [IsActive, hm, hact, GetQueueLength, hq] at this
      | cons x xs =>
        simp [hq, IsActive, hm, GetQueueLength, mapSet_self] at hact ⊢
        simp [opSafe, IsActive, hm, hact, GetQueueLength, hq] at hsafe
        omega
  | removeTrack cid i =>
    simp only [opChatId] at hc
    subst hc
    simp only [applyOp] at hact ⊢
    unfold RemoveTrack at hact ⊢
    cases hm : m c with
    | none =>
      simp [hm] at hact ⊢
      exact hinv c hact
    | some d =>
      by_cases hb : (i < 0 || (d.Queue.length : Int) ≤ i) = true
      · simp [hm, hb] at hact ⊢
        exact hinv c (by simpa [IsActive, hm] using hact)
      · simp [hm, hb, IsActive, mapSet_self] at hact ⊢
        simp [opSafe, IsActive, hm, hact, GetQueueLength] at hsafe
        simp only [Bool.or_eq_true, decide_eq_true_eq, not_or] at hb
        have hlen : i.toNat < d.Queue.length := by omega
        simp [GetQueueLength, mapSet_self]
        have := List.length_eraseIdx_add_one hlen
        omega
  | setLoop cid n =>
    simp only [opChatId] at hc
    subst hc
    simp only [applyOp] at hact ⊢
    unfold SetLoopCount at hact ⊢
    cases hm : m c with
    | none =>
      simp [hm] at hact ⊢
      exact hinv c hact
    | some d =>
      cases hq : d.Queue with
      | nil =>
        simp [hq, hm] at hact ⊢
        exact hinv c (by simpa [IsActive, hm] using hact)
      | cons x xs =>
        simp [hq, hm, IsActive, mapSet_self, GetQueueLength] at hact ⊢
  | clearChat cid dc =>
    simp only [opChatId] at hc
    subst hc
    simp only [applyOp] at hact ⊢
    unfold ClearChat at hact ⊢
    cases hm : m c with
    | none =>
      simp [hm] at hact ⊢
      exact hinv c hact
    | some d =>
      simp [hm, IsActive, mapDel_self] at hact

theorem queueInv_applyOps (m : ChatMap) (ops : List CacheOp)
    (hinv : QueueInv m) (hsafe : SeqSafe m ops = true) :
    QueueInv (applyOps m ops) := by
  induction ops generalizing m with
  | nil => exact hinv
  | cons op rest ih =>
    simp only [SeqSafe, Bool.and_eq_true] at hsafe
    exact ih (applyOp m op) (queueInv_step m op hinv hsafe.1) hsafe.2

/-- C6 counterexample: the two-operation sequence `AddSong` then
`RemoveCurrentSong` (popping the only track) reaches a state in which the
chat is still active while its queue is empty, so the claimed invariant
fails on reachable store states. -/
theorem C6_counterexample :
    IsActive ((RemoveCurrentSong (AddSong emptyChats 1 sampleTrack) 1 false).2.2) 1 = true
    ∧ GetQueueLength ((RemoveCurrentSong (AddSong emptyChats 1 sampleTrack) 1 false).2.2) 1 = 0 := by
  constructor
  · rfl
  · rfl

/-- C6 (amended): the store itself does not enforce the invariant — popping
the last track or `SetActive(c, true)` on a chat with no queue leaves an
active chat with an empty queue — but every state reached from the empty
store by a sequence of operations in which `SetActive(c, true)` is only
applied to a chat with a non-empty queue and `RemoveCurrentSong` /
`RemoveTrack` only to a chat that is inactive or has at least two queued
tracks satisfies: every active chat has a queue of length at least 1. -/
theorem C6_activity_invariant (ops : List CacheOp)
    (hsafe : SeqSafe emptyChats ops = true) :
    ∀ c : Int, IsActive (applyOps emptyChats ops) c = true →
      1 ≤ GetQueueLength (applyOps emptyChats ops) c := by
  have hbase : QueueInv emptyChats := by
    intro c hact
    simp [IsActive, emptyChats] at hact
  exact queueInv_applyOps emptyChats ops hbase hsafe

/-- Witness for C6 on the safe sequence that adds one song and sets its
loop count: the chat ends active with one queued track. -/
theorem C6_witness :
    SeqSafe emptyChats [CacheOp.addSong 1 sampleTrack, CacheOp.setLoop 1 3] = true
    ∧ 1 ≤ GetQueueLength
        (applyOps emptyChats [CacheOp.addSong 1 sampleTrack, CacheOp.setLoop 1 3]) 1 :=
  ⟨by decide,
   C6_activity_invariant [CacheOp.addSong 1 sampleTrack, CacheOp.setLoop 1 3]
     (by decide) 1 (by decide)⟩

theorem sendRequest_eq (outcomes : Nat → AttemptOutcome) :
    sendRequest outcomes =
      match outcomes 0 with
      | AttemptOutcome.response s0 =>
        if s0 < 500 then { ok := some s0, attempts := 1, sleeps := [] }
        else
          match outcomes 1 with
          | AttemptOutcome.response s1 =>
            if s1 < 500 then { ok := some s1, attempts := 2, sleeps := [1] }
            else { ok := none, attempts := 2, sleeps := [1] }
          | AttemptOutcome.netError _ => { ok := none, attempts := 2, sleeps := [1] }
      | AttemptOutcome.netError temp0 =>
        if temp0 then
          match outcomes 1 with
          | AttemptOutcome.response s1 =>
            if s1 < 500 then { ok := some s1, attempts := 2, sleeps := [1] }
            else { ok := none, attempts := 2, sleeps := [1] }
          | AttemptOutcome.netError _ => { ok := none, attempts := 2, sleeps := [1] }
        else { ok := none, attempts := 1, sleeps := [] } := by
  unfold sendRequest
  cases h0 : outcomes 0 with
  | response s0 =>
    by_cases hs0 : s0 < 500
    · simp [sendRequestLoop, maxRetries, initialBackoffSec, h0, hs0]
    · cases h1 : outcomes 1 with
      | response s1 =>
        by_cases hs1 : s1 < 500 <;>
          simp [sendRequestLoop, maxRetries, initialBackoffSec, h0, hs0, h1, hs1]
      | netError temp =>
        cases temp <;>
          simp [sendRequestLoop, maxRetries, initialBackoffSec, h0, hs0, h1]
  | netError temp0 =>
    cases temp0 with
    | false => simp [sendRequestLoop, maxRetries, initialBackoffSec, h0]
    | true =>
      cases h1 : outcomes 1 with
      | response s1 =>
        by_cases hs1 : s1 < 500 <;>
          simp [sendRequestLoop, maxRetries, initialBackoffSec, h0, h1, hs1]
      | netError temp =>
        cases temp <;>
          simp [sendRequestLoop, maxRetries, initialBackoffSec, h0, h1]

/-- C7: the catalog request layer makes at most 2 attempts; a response with
status below 500 — including non-200 — is returned immediately after one
attempt with no sleep; a second attempt happens only when the first produced
a temporary network error or a status of 500 or above; and whenever a retry
happens, exactly one backoff sleep of 1 second precedes it. -/
theorem C7_http_retry_policy (outcomes : Nat → AttemptOutcome) :
    (sendRequest outcomes).attempts ≤ maxRetries
    ∧ (∀ status : Nat, outcomes 0 = AttemptOutcome.response status → status < 500 →
        sendRequest outcomes = { ok := some status, attempts := 1, sleeps := [] })
    ∧ ((sendRequest outcomes).attempts = 2 →
        outcomes 0 = AttemptOutcome.netError true ∨
        ∃ status : Nat, outcomes 0 = AttemptOutcome.response status ∧ 500 ≤ status)
    ∧ ((sendRequest outcomes).attempts = 2 →
        (sendRequest outcomes).sleeps = [initialBackoffSec]) := by
  have he := sendRequest_eq outcomes
  cases h0 : outcomes 0 with
  | response s0 =>
    simp only [h0] at he
    by_cases hs0 : s0 < 500
    · rw [if_pos hs0] at he
      refine ⟨by rw [he]; norm_num [maxRetries], ?_, by rw [he]; simp, by rw [he]; simp⟩
      intro status hstat hlt
      injection hstat with h
      subst h
      rw [he]
    · rw [if_neg hs0] at he
      have hX : (sendRequest outcomes).attempts = 2 ∧
          (sendRequest outcomes).sleeps = [1] := by
        rw [he]
        cases h1 : outcomes 1 with
        | response s1 => by_cases hs1 : s1 < 500 <;> simp [hs1]
        | netError temp => simp
      refine ⟨by rw [hX.1]; decide, ?_, ?_, ?_⟩
      · intro status hstat hlt
        injection hstat with h
        subst h
        exact absurd hlt hs0
      · intro _
        exact Or.inr ⟨s0, rfl, by omega⟩
      · intro _
        rw [hX.2]
        rfl
  | netError temp0 =>
    simp only [h0] at he
    cases temp0 with
    | false =>
      rw [if_neg Bool.false_ne_true] at he
      refine ⟨by rw [he]; decide, ?_, ?_, ?_⟩
      · intro status hstat hlt
        exact absurd hstat (by simp)
      · intro h2
        rw [he] at h2
        simp at h2
      · intro h2
        rw [he] at h2
        simp at h2
    | true =>
      rw [if_pos rfl] at he
      have hX : (sendRequest outcomes).attempts = 2 ∧
          (sendRequest outcomes).sleeps = [1] := by
        rw [he]
        cases h1 : outcomes 1 with
        | response s1 => by_cases hs1 : s1 < 500 <;> simp [hs1]
        | netError temp => simp
      refine ⟨by rw [hX.1]; decide, ?_, ?_, ?_⟩
      · intro status hstat hlt
        exact absurd hstat (by simp)
      · intro _
        exact Or.inl rfl
      · intro _
        rw [hX.2]
        rfl

/-- Attempt environments for the C7 witness: a first attempt answering 502
with a second answering 200, and an environment always answering 404. -/
def outcomesRetry : Nat → AttemptOutcome :=
  fun n => if n = 0 then AttemptOutcome.response 502 else AttemptOutcome.response 200

def outcomesTerminal : Nat → AttemptOutcome :=
  fun _ => AttemptOutcome.response 404

/-- Witness for C7: a 502 first attempt is retried after a 1-second sleep
and the layer never exceeds 2 attempts; a 404 is returned immediately after
a single attempt with no sleep. -/
theorem C7_witness :
    (sendRequest outcomesRetry).attempts ≤ maxRetries
    ∧ sendRequest outcomesTerminal = { ok := some 404, attempts := 1, sleeps := [] }
    ∧ (outcomesRetry 0 = AttemptOutcome.netError true ∨
       ∃ status : Nat, outcomesRetry 0 = AttemptOutcome.response status ∧ 500 ≤ status)
    ∧ (sendRequest outcomesRetry).sleeps = [initialBackoffSec] :=
  ⟨(C7_http_retry_policy outcomesRetry).1,
   (C7_http_retry_policy outcomesTerminal).2.1 404 rfl (by decide),
   (C7_http_retry_policy outcomesRetry).2.2.1 (by decide),
   (C7_http_retry_policy outcomesRetry).2.2.2 (by decide)⟩

/-- C10: `Cache.Get` never mutates the cache: the store it leaves behind is
the store it was given; a `Get` on an entry whose expiration is in the past
reports a miss yet the entry remains stored; a later `SetWithTTL` makes the
key live again for a `Get` within the new TTL; and only `Delete` (or
`Clear`) removes the entry. -/
theorem C10_get_is_pure :
    (∀ (T : Type) (c : TTLCache T) (k : String) (now : Int), (c.get k now).2 = c)
    ∧ (∀ (T : Type) (c : TTLCache T) (k : String) (now : Int) (item : CacheItem T),
        c.data k = some item → item.Expiration < now →
        (c.get k now).1 = none ∧ ((c.get k now).2).data k = some item)
    ∧ (∀ (T : Type) (c : TTLCache T) (k : String) (v : T) (ttl now now2 : Int),
        now2 ≤ now + ttl →
        ((c.setWithTTL k v ttl now).get k now2).1 = some v)
    ∧ (∀ (T : Type) (c : TTLCache T) (k : String), (c.del k).data k = none) := by
  refine ⟨?_, ?_, ?_, ?_⟩
  · intro T c k now
    unfold TTLCache.get
    cases hdata : c.data k with
    | none => rfl
    | some item => by_cases h : item.Expiration < now <;> simp [h]
  · intro T c k now item hdata hexp
    simp [TTLCache.get, hdata, hexp]
  · intro T c k v ttl now now2 hle
    have hnot : ¬ (now + ttl < now2) := by omega
    simp [TTLCache.get, TTLCache.setWithTTL, hnot]
  · intro T c k
    simp [TTLCache.del]

/-- A concrete Nat-valued cache for the C10 witness: default TTL 50, with
value 7 stored under "k" at time 100 with TTL 10 (so expiring at 110). -/
def cacheW : TTLCache Nat := (TTLCache.new Nat 50).setWithTTL "k" 7 10 100

/-- Witness for C10: a read of "k" at time 120 misses (the entry expired at
110) but leaves the entry stored; a read at 105 hits with 7; any read
leaves the cache unchanged; `Delete` removes the entry. -/
theorem C10_witness :
    ((cacheW.get "k" 120).1 = none ∧ ((cacheW.get "k" 120).2).data "k" =
      some { Value := 7, Expiration := 110 })
    ∧ (cacheW.get "k" 105).1 = some 7
    ∧ (cacheW.get "k" 120).2 = cacheW
    ∧ (cacheW.del "k").data "k" = none :=
  ⟨C10_get_is_pure.2.1 Nat cacheW "k" 120 { Value := 7, Expiration := 110 }
     (by decide) (by decide),
   C10_get_is_pure.2.2.1 Nat (TTLCache.new Nat 50) "k" 7 10 100 105 (by decide),
   C10_get_is_pure.1 Nat cacheW "k" 120,
   C10_get_is_pure.2.2.2 Nat cacheW "k"⟩

end TgMusic
